import Mathlib

/-!
Verification of the memory-management and trap-dispatch core of a small
RISC-V supervisor-mode kernel (SV39 page tables, user-buffer translation,
trap dispatch, and the write/exit system calls).

The Rust sources are embedded shallowly: machine integers become `Nat`
(with explicit `% 2 ^ 64` or masks where the source masks), fallible or
panicking operations return `Option`, and physical memory is an explicit
function from (physical page number, slot/offset) to stored value.
Components whose source file is absent from the repository snapshot
(`mm/address.rs`, `mm/frame_allocator.rs`, `syscall/mod.rs`) are modelled
from the specification text and marked as such in their doc comments.
-/

namespace RPOS

/-! ## Bit-level helper lemmas -/

/-! ## Page-table entry flags (`PTEFlags`, src/mm/page_table.rs lines 9-22) -/

/-- Valid flag bit. -/

def PTEFlags.V : Nat := 1

/-- Readable flag bit. -/

def PTEFlags.R : Nat := 2

/-- Writable flag bit. -/

def PTEFlags.W : Nat := 4

/-- Executable flag bit. -/

def PTEFlags.X : Nat := 8

/-- User-accessible flag bit. -/

def PTEFlags.U : Nat := 16

/-- Global flag bit. -/

def PTEFlags.G : Nat := 32

/-- Accessed flag bit. -/

def PTEFlags.A : Nat := 64

/-- Dirty flag bit. -/

def PTEFlags.D : Nat := 128

/-- `PTEFlags::from_bits` on a `u8` value: all eight bits of the carrier are
defined flags, so the check is against the mask 255. Returns `none` exactly
when the value has a bit outside the defined set. -/

def PTEFlags.from_bits (b : Nat) : Option Nat :=
  if b &&& 255 = b then some b else none

/-! ## Page-table entries (src/mm/page_table.rs lines 24-65) -/

/-- `PageTableEntry`: a machine word packing a physical page number and flags. -/

structure PageTableEntry where
  bits : Nat
deriving DecidableEq

/-- `PageTableEntry::new(ppn, flags)`: `ppn.0 << 10 | flags.bits()`. -/

def PageTableEntry.new (ppn flags : Nat) : PageTableEntry :=
  ⟨ppn <<< 10 ||| flags⟩

/-- `PageTableEntry::empty()`: all-zero entry. -/

def PageTableEntry.empty : PageTableEntry := ⟨0⟩

/-- `PageTableEntry::ppn()`: `bits >> 10 & ((1 << 44) - 1)`. -/

def PageTableEntry.ppn (e : PageTableEntry) : Nat :=
  e.bits >>> 10 &&& (2 ^ 44 - 1)

/-- `PageTableEntry::flags()`: `PTEFlags::from_bits(bits as u8)`; the `as u8`
cast keeps the low eight bits. The source unwraps the result; totality of
that unwrap is claim C10. -/

def PageTableEntry.flags (e : PageTableEntry) : Option Nat :=
  PTEFlags.from_bits (e.bits % 256)

/-- `PageTableEntry::is_valid()`: `(flags() & PTEFlags::V) != empty`.
The `getD 0` models the source's unwrap of `flags()` (which never fails). -/

def PageTableEntry.is_valid (e : PageTableEntry) : Bool :=
  decide (((e.flags).getD 0) &&& PTEFlags.V ≠ 0)

/-! ## Physical memory and the frame allocator -/

/-- Page size: 4096 bytes, 12-bit offset. -/

def PAGE_SIZE : Nat := 4096

/-- Modelled from the spec: the frame allocator state (`mm/frame_allocator.rs`
is absent from the snapshot). Section 4.2: "a monotonically increasing
frontier over the physical frame range plus a recycle list of freed frame
numbers". -/

structure FrameAllocatorState where
  current : Nat
  endFrame : Nat
  recycled : List Nat

/-- The machine: physical memory plus allocator state. A physical page is
viewed either as an array of 512 page-table entries (`pte p i` = the bits of
the entry at slot `i` of page `p`, the direct-map assumption of section 4.1)
or as an array of 4096 bytes (`byte p o`). -/

structure Machine where
  pte : Nat → Nat → Nat
  byte : Nat → Nat → Nat
  alloc : FrameAllocatorState

/-- Write the page-table-entry slot `(p, i)`. -/

def writePte (m : Machine) (p i v : Nat) : Machine :=
  { m with pte := fun q j => if q = p then (if j = i then v else m.pte q j) else m.pte q j }

/-- Zero-fill the page-table-entry view of page `p` (spec 4.2: "Every
returned frame's backing memory must be zero-filled"). -/

def zeroPage (m : Machine) (p : Nat) : Machine :=
  { m with pte := fun q j => if q = p then 0 else m.pte q j }

/-- Modelled from the spec: `frame_alloc` (spec 4.2 `allocate()`): "pop from
the recycle list if non-empty; otherwise take the next frame at the frontier
and advance it. Fails (returns none) once the frontier reaches the configured
end"; the returned frame is zero-filled. -/

def frame_alloc (m : Machine) : Option (Nat × Machine) :=
  match m.alloc.recycled with
  | f :: rest =>
      some (f, zeroPage { m with alloc := { m.alloc with recycled := rest } } f)
  | [] =>
      if m.alloc.current < m.alloc.endFrame then
        some (m.alloc.current,
          zeroPage { m with alloc := { m.alloc with current := m.alloc.current + 1 } }
            m.alloc.current)
      else none

/-! ## Virtual page numbers (`mm/address.rs` is absent from the snapshot) -/

/-- Modelled from the spec: `VirtPageNum::indexes()` (`mm/address.rs` is
missing). Section 3: "A VirtPageNum decomposes into exactly three 9-bit
indices (most-significant level first)". -/

def indexes (vpn : Nat) : List Nat :=
  [vpn >>> 18 &&& 511, vpn >>> 9 &&& 511, vpn &&& 511]

/-! ## The page table (src/mm/page_table.rs lines 67-164) -/

/-- `PageTable`: a root physical page number plus the list of (the page
numbers of) the directory frames it owns. -/

structure PageTable where
  root_ppn : Nat
  frames : List Nat
deriving DecidableEq

/-- `PageTable::new()`: allocate a root frame; `none` models the panic of the
source's `unwrap` on allocation failure. -/

def PageTable.new (m : Machine) : Option (PageTable × Machine) :=
  match frame_alloc m with
  | none => none
  | some (f, m') => some (⟨f, [f]⟩, m')

/-- `PageTable::from_token(satp)`: root from the low 44 bits, no owned
frames. -/

def PageTable.from_token (satp : Nat) : PageTable :=
  ⟨satp &&& (2 ^ 44 - 1), []⟩

/-- `PageTable::token()`: `8usize << 60 | root_ppn`. -/

def PageTable.token (pt : PageTable) : Nat :=
  8 <<< 60 ||| pt.root_ppn

/-- The loop body of `PageTable::find_pte`: iterate over the index list with
loop counter `i` and current table page `ppn`; at `i == 2` return the slot's
location; descend only through valid entries. Returns the location `(page,
slot)` of the final-level entry, or `none` if a directory entry on the way is
invalid. -/

def find_pte_aux (m : Machine) : List Nat → Nat → Nat → Option (Nat × Nat)
  | [], _, _ => none
  | idx :: rest, i, ppn =>
      if i = 2 then some (ppn, idx)
      else
        let e : PageTableEntry := ⟨m.pte ppn idx⟩
        if e.is_valid then find_pte_aux m rest (i + 1) e.ppn
        else none

/-- `PageTable::find_pte(vpn)` (read-only walk). -/

def PageTable.find_pte (m : Machine) (pt : PageTable) (vpn : Nat) : Option (Nat × Nat) :=
  find_pte_aux m (indexes vpn) 0 pt.root_ppn

/-- The loop body of `PageTable::find_pte_create`: like `find_pte_aux` but an
invalid directory entry is replaced by a freshly allocated, zero-filled frame
(entry `new(frame, V)`, frame appended to the table's owned list). `none`
models the panic of `frame_alloc().unwrap()` on exhaustion. -/

def find_pte_create_aux (m : Machine) (pt : PageTable) :
    List Nat → Nat → Nat → Option ((Nat × Nat) × PageTable × Machine)
  | [], _, _ => none
  | idx :: rest, i, ppn =>
      if i = 2 then some ((ppn, idx), pt, m)
      else
        let e : PageTableEntry := ⟨m.pte ppn idx⟩
        if e.is_valid then find_pte_create_aux m pt rest (i + 1) e.ppn
        else
          match frame_alloc m with
          | none => none
          | some (f, m') =>
              let entry := PageTableEntry.new f PTEFlags.V
              let m'' := writePte m' ppn idx entry.bits
              find_pte_create_aux m'' { pt with frames := pt.frames ++ [f] }
                rest (i + 1) entry.ppn

/-- `PageTable::find_pte_create(vpn)`. -/

def PageTable.find_pte_create (m : Machine) (pt : PageTable) (vpn : Nat) :
    Option ((Nat × Nat) × PageTable × Machine) :=
  find_pte_create_aux m pt (indexes vpn) 0 pt.root_ppn

/-- `PageTable::map(vpn, ppn, flags)`: find-or-create the final-level slot,
assert it is invalid (a valid slot is the source's
"vpn is mapped before mapping" panic, modelled by `none`), then write
`new(ppn, flags | V)`. -/

def PageTable.map (m : Machine) (pt : PageTable) (vpn ppn flags : Nat) :
    Option (PageTable × Machine) :=
  match PageTable.find_pte_create m pt vpn with
  | none => none
  | some ((p, i), pt', m') =>
      if (⟨m'.pte p i⟩ : PageTableEntry).is_valid then none
      else some (pt', writePte m' p i (PageTableEntry.new ppn (flags ||| PTEFlags.V)).bits)

/-- `PageTable::unmap(vpn)`: walk without creating; the source unwraps the
walk result and asserts the entry is valid (both failures modelled by
`none`), then clears the entry to `empty`. -/

def PageTable.unmap (m : Machine) (pt : PageTable) (vpn : Nat) : Option Machine :=
  match PageTable.find_pte m pt vpn with
  | none => none
  | some (p, i) =>
      if (⟨m.pte p i⟩ : PageTableEntry).is_valid then
        some (writePte m p i PageTableEntry.empty.bits)
      else none

/-- `PageTable::translate(vpn)`: `find_pte(vpn).map(|pte| *pte)`. -/

def PageTable.translate (m : Machine) (pt : PageTable) (vpn : Nat) :
    Option PageTableEntry :=
  (PageTable.find_pte m pt vpn).map (fun loc => ⟨m.pte loc.1 loc.2⟩)

/-- Whether `vpn` currently has a valid final-level entry. -/

def IsMapped (m : Machine) (pt : PageTable) (vpn : Nat) : Bool :=
  match PageTable.translate m pt vpn with
  | some e => e.is_valid
  | none => false

/-! ## Characterizing the three-level walk -/

/-- Level-0 (most significant) index of a virtual page number. -/

def idx0 (vpn : Nat) : Nat := vpn >>> 18 &&& 511

/-- Level-1 index. -/

def idx1 (vpn : Nat) : Nat := vpn >>> 9 &&& 511

/-- Level-2 (leaf) index. -/

def idx2 (vpn : Nat) : Nat := vpn &&& 511

/-! ## Well-formedness of a machine/page-table pair -/

/-- Allocator/table sanity: the root and every page-table entry stored in an
allocated page point below the allocation frontier, the recycle list is
empty, and every allocatable frame number fits in the 44-bit physical page
number field. Tables built by `new`/`map` from a fresh allocator satisfy
this. -/

def Inv (m : Machine) (pt : PageTable) : Prop :=
  pt.root_ppn < m.alloc.current ∧
  m.alloc.recycled = [] ∧
  m.alloc.endFrame ≤ 2 ^ 44 ∧
  ∀ p i, p < m.alloc.current → (⟨m.pte p i⟩ : PageTableEntry).ppn < m.alloc.current

/-- The walk for `vpn` is alias-free: the slots visited at distinct levels
are distinct memory locations (true of any radix tree whose directory pages
are pairwise distinct frames, as built by `new`/`map`). -/

def walk_ok (m : Machine) (pt : PageTable) (vpn : Nat) : Bool :=
  (if (⟨m.pte pt.root_ppn (idx0 vpn)⟩ : PageTableEntry).is_valid then
    (if ((⟨m.pte pt.root_ppn (idx0 vpn)⟩ : PageTableEntry).ppn = pt.root_ppn ∧
         idx1 vpn = idx0 vpn) then false
     else
      (if (⟨m.pte (⟨m.pte pt.root_ppn (idx0 vpn)⟩ : PageTableEntry).ppn (idx1 vpn)⟩ :
            PageTableEntry).is_valid then
        decide
          (¬((⟨m.pte (⟨m.pte pt.root_ppn (idx0 vpn)⟩ : PageTableEntry).ppn
                (idx1 vpn)⟩ : PageTableEntry).ppn = pt.root_ppn ∧ idx2 vpn = idx0 vpn) ∧
           ¬((⟨m.pte (⟨m.pte pt.root_ppn (idx0 vpn)⟩ : PageTableEntry).ppn
                (idx1 vpn)⟩ : PageTableEntry).ppn =
              (⟨m.pte pt.root_ppn (idx0 vpn)⟩ : PageTableEntry).ppn ∧
             idx2 vpn = idx1 vpn))
       else true))
   else true)

/-! ## User-buffer translation (src/mm/page_table.rs lines 188-209).
`VirtAddr::floor`, `page_offset`, `step` and the `VirtAddr`/`VirtPageNum`
conversions come from the absent `mm/address.rs`; they are modelled from the
spec (section 3): page size 4096, `floor`/`page_offset` split an address into
`a / 4096` and `a % 4096`, `step` advances a page number by one. -/

/-- One slice pushed by `translated_byte_buffer`: the byte range `[lo, hi)`
of the byte view of physical page `ppn`. -/

structure BufSlice where
  ppn : Nat
  lo : Nat
  hi : Nat
deriving DecidableEq

/-- The bytes a slice denotes, read from machine memory. -/

def sliceBytes (m : Machine) (s : BufSlice) : List Nat :=
  (List.range (s.hi - s.lo)).map (fun k => m.byte s.ppn (s.lo + k))

/-- The loop of `translated_byte_buffer`: from `start` up to `endv`,
translate the current page, slice from the current offset to the next page
boundary or `endv` (whichever is first), and advance. `none` models the
panic of `translate(vpn).unwrap()` on an unmapped page. -/

def tbb_aux (m : Machine) (pt : PageTable) (start endv : Nat) : Option (List BufSlice) :=
  if start < endv then
    match PageTable.translate m pt (start / PAGE_SIZE) with
    | none => none
    | some e =>
        let end_va := min ((start / PAGE_SIZE + 1) * PAGE_SIZE) endv
        let s := if end_va % PAGE_SIZE = 0 then BufSlice.mk e.ppn (start % PAGE_SIZE) PAGE_SIZE
                 else BufSlice.mk e.ppn (start % PAGE_SIZE) (end_va % PAGE_SIZE)
        match tbb_aux m pt end_va endv with
        | none => none
        | some rest => some (s :: rest)
  else some []
termination_by endv - start
decreasing_by
  simp_wf
  simp only [PAGE_SIZE] at *
  omega

/-- `translated_byte_buffer(token, ptr, len)`. -/

def translated_byte_buffer (m : Machine) (token ptr len : Nat) : Option (List BufSlice) :=
  tbb_aux m (PageTable.from_token token) ptr (ptr + len)

/-- The byte at user virtual address `a` under page table `pt` (the
specification-level meaning of the buffer: translate the containing page,
index by the page offset). -/

def vbyte (m : Machine) (pt : PageTable) (a : Nat) : Nat :=
  match PageTable.translate m pt (a / PAGE_SIZE) with
  | some e => m.byte e.ppn (a % PAGE_SIZE)
  | none => 0

/-! ## Integer casts -/

/-- A `usize` value reinterpreted as `isize` (two's complement). -/

def isizeOfUsize (n : Nat) : Int :=
  if n % 2 ^ 64 < 2 ^ 63 then (n % 2 ^ 64 : Nat) else (n % 2 ^ 64 : Nat) - 2 ^ 64

/-- An `isize` value stored back into a `usize` register (`as usize`). -/

def usizeOfIsize (v : Int) : Nat :=
  (v % 2 ^ 64).toNat

/-- A `usize` value truncated to `i32` (`as i32`). -/

def i32OfUsize (n : Nat) : Int :=
  if n % 2 ^ 32 < 2 ^ 31 then (n % 2 ^ 32 : Nat) else (n % 2 ^ 32 : Nat) - 2 ^ 32

/-! ## `sys_write` (src/syscall/fs.rs lines 10-33) -/

/-- A UTF-8 continuation byte (`0x80..=0xBF`). -/

def isCont (b : Nat) : Bool := 128 ≤ b && b ≤ 191

/-- Validity of a byte sequence as UTF-8, as checked by
`core::str::from_utf8`: strict UTF-8 (no overlong forms, no surrogates,
scalar values at most U+10FFFF). -/

def utf8Valid : List Nat → Bool
  | [] => true
  | b :: rest =>
    if b ≤ 127 then utf8Valid rest
    else if 194 ≤ b && b ≤ 223 then
      match rest with
      | c1 :: rest2 => isCont c1 && utf8Valid rest2
      | [] => false
    else if 224 ≤ b && b ≤ 239 then
      match rest with
      | c1 :: c2 :: rest3 =>
          (if b = 224 then 160 ≤ c1 && c1 ≤ 191
           else if b = 237 then 128 ≤ c1 && c1 ≤ 159
           else isCont c1) && isCont c2 && utf8Valid rest3
      | _ => false
    else if 240 ≤ b && b ≤ 244 then
      match rest with
      | c1 :: c2 :: c3 :: rest4 =>
          (if b = 240 then 144 ≤ c1 && c1 ≤ 191
           else if b = 244 then 128 ≤ c1 && c1 ≤ 143
           else isCont c1) && isCont c2 && isCont c3 && utf8Valid rest4
      | _ => false
    else false

/-- The bytes of the fixed placeholder string `"[Invalid UTF-8]"` substituted
for an invalid buffer. -/

def invalidUtf8Placeholder : List Nat :=
  [91, 73, 110, 118, 97, 108, 105, 100, 32, 85, 84, 70, 45, 56, 93]

/-- Result of `sys_write`: the returned value, the bytes emitted to the
console by `print!` of the decoded text, and whether the
unsupported-descriptor notice was logged (`println!` in the catch-all arm;
kernel log lines are kept on a separate channel from the user text). -/

structure WriteResult where
  ret : Int
  out : List Nat
  logged : Bool
deriving DecidableEq

/-- `sys_write(fd, buf, len)` reading the raw bytes at kernel addresses
`buf..buf+len` from `kmem` (the source reads the slice directly, without
page-table translation). -/

def sys_write (kmem : Nat → Nat) (fd buf len : Nat) : WriteResult :=
  if fd = 1 ∨ fd = 2 then
    if buf = 0 ∨ len = 0 then ⟨0, [], false⟩
    else
      let bytes := (List.range len).map (fun k => kmem (buf + k))
      let text := if utf8Valid bytes then bytes else invalidUtf8Placeholder
      ⟨isizeOfUsize len, text, false⟩
  else ⟨-1, [], true⟩

/-- `sys_read`: stub, always 0. -/

def sys_read (_fd _buf _len : Nat) : Int := 0

/-! ## Shutdown and `sys_exit` (src/sbi/mod.rs lines 72-86,
src/syscall/process.rs lines 6-9) -/

/-- System Reset extension ID (`SBI_EXT_SRST`). -/

def SBI_EXT_SRST : Nat := 0x53525354

/-- Reset type: shutdown. -/

def SBI_SRST_RESET_TYPE_SHUTDOWN : Nat := 0

/-- Reset reason: none. -/

def SBI_SRST_RESET_REASON_NONE : Nat := 0

/-- The firmware reset request issued by `shutdown`: extension ID, function
ID, and the two arguments (reset type, reset reason). -/

structure SbiResetCall where
  ext : Nat
  fid : Nat
  arg0 : Nat
  arg1 : Nat
deriving DecidableEq

/-- How execution ends after `shutdown()` is entered: the firmware call
terminates the machine, or it returned and the kernel sits in the `wfi`
idle loop forever. There is no constructor for returning to the caller:
`shutdown` has return type `!`. -/

inductive ExitOutcome where
  | halted
  | idleWait
deriving DecidableEq

/-- `shutdown()`: issue the SRST reset call; if the firmware call returns
(`firmwareReturns = true`), loop forever on `wfi`. -/

def shutdown (firmwareReturns : Bool) : SbiResetCall × ExitOutcome :=
  (⟨SBI_EXT_SRST, 0, SBI_SRST_RESET_TYPE_SHUTDOWN, SBI_SRST_RESET_REASON_NONE⟩,
   if firmwareReturns then ExitOutcome.idleWait else ExitOutcome.halted)

/-- `sys_exit(exit_code)`: log, then `shutdown()`; return type `!`. -/

def sys_exit (_exit_code : Int) (firmwareReturns : Bool) : SbiResetCall × ExitOutcome :=
  shutdown firmwareReturns

/-! ## Syscall dispatch and the trap handler (src/trap/mod.rs lines 33-66).
The dispatcher itself (`syscall/mod.rs`) is absent from the snapshot and is
modelled from the spec's system-call ABI table (section 6): call numbers
63/64/93/124/172/220/221/260, unrecognized numbers are a dispatch-level
contract violation (modelled as `dispatchPanic`). -/

/-- Outcome of syscall dispatch: a returned value, a call that never returns
(`exit`), or the dispatch-level panic on an unknown call number. -/

inductive SyscallOutcome where
  | ret (v : Int)
  | exited (code : Int)
  | dispatchPanic (id : Nat)
deriving DecidableEq

/-- Modelled from the spec: the syscall dispatcher (section 6 ABI table).
Returns the outcome and the console bytes emitted by the handler. -/

def syscall (kmem : Nat → Nat) (id : Nat) (a0 a1 a2 : Nat) : SyscallOutcome × List Nat :=
  match id with
  | 63 => (SyscallOutcome.ret (sys_read a0 a1 a2), [])
  | 64 => let w := sys_write kmem a0 a1 a2; (SyscallOutcome.ret w.ret, w.out)
  | 93 => (SyscallOutcome.exited (i32OfUsize a0), [])
  | 124 => (SyscallOutcome.ret 0, [])
  | 172 => (SyscallOutcome.ret 1, [])
  | 220 => (SyscallOutcome.ret (-1), [])
  | 221 => (SyscallOutcome.ret (-1), [])
  | 260 => (SyscallOutcome.ret (-1), [])
  | other => (SyscallOutcome.dispatchPanic other, [])

/-- `TrapContext` (src/trap/context.rs): 32 general registers (indices above
31 unused), `sstatus`, and the saved program counter `sepc`. -/

structure TrapContext where
  x : Nat → Nat
  sstatus : Nat
  sepc : Nat

/-- The trap causes distinguished by `trap_handler`'s match. -/

inductive Scause where
  | userEnvCall
  | storeFault
  | storePageFault
  | loadFault
  | loadPageFault
  | illegalInstruction
  | supervisorTimer
  | other (code : Nat)
deriving DecidableEq

/-- The result of `trap_handler`: resume the (updated) context, or one of
the non-returning ends — the fatal panics (which report the stated data and
then halt through the panic handler's `shutdown`) and the exit-syscall
shutdown. -/

inductive TrapResult where
  | resume (cx : TrapContext)
  | pageFaultPanic (pc : Nat) (badAddr : Nat)
  | illegalInstructionPanic (pc : Nat)
  | unsupportedPanic (cause : Scause) (stval : Nat)
  | exited (code : Int)
  | dispatchPanic (id : Nat)

/-- `trap_handler(cx)` keyed on `scause`: a user environment call advances
`sepc` by 4, dispatches on `x17` with arguments `x10, x11, x12`, and stores
the result into `x10`; faults and unsupported causes report and panic; the
timer interrupt only logs. Returns the result and the console bytes emitted
by a dispatched handler. -/

def trap_handler (kmem : Nat → Nat) (cause : Scause) (stval : Nat) (cx : TrapContext) :
    TrapResult × List Nat :=
  match cause with
  | Scause.userEnvCall =>
      let cx1 : TrapContext := { cx with sepc := cx.sepc + 4 }
      match syscall kmem (cx.x 17) (cx.x 10) (cx.x 11) (cx.x 12) with
      | (SyscallOutcome.ret v, out) =>
          (TrapResult.resume { cx1 with x := Function.update cx1.x 10 (usizeOfIsize v) }, out)
      | (SyscallOutcome.exited c, out) => (TrapResult.exited c, out)
      | (SyscallOutcome.dispatchPanic id, out) => (TrapResult.dispatchPanic id, out)
  | Scause.storeFault => (TrapResult.pageFaultPanic cx.sepc stval, [])
  | Scause.storePageFault => (TrapResult.pageFaultPanic cx.sepc stval, [])
  | Scause.loadFault => (TrapResult.pageFaultPanic cx.sepc stval, [])
  | Scause.loadPageFault => (TrapResult.pageFaultPanic cx.sepc stval, [])
  | Scause.illegalInstruction => (TrapResult.illegalInstructionPanic cx.sepc, [])
  | Scause.supervisorTimer => (TrapResult.resume cx, [])
  | Scause.other c => (TrapResult.unsupportedPanic (Scause.other c) stval, [])

/-- Whether a trap result resumes execution of the trapped context. -/

def TrapResult.resumes : TrapResult → Bool
  | TrapResult.resume _ => true
  | _ => false

/-! ## Concrete example state used by witnesses -/

/-- A small concrete page-table memory: page 0 is the root directory (slot 0
points to page 1), page 1 the mid-level directory (slot 0 points to page 2),
page 2 the leaf table (slot 0 maps physical page 3 with V|R). -/

def exPte (p i : Nat) : Nat :=
  if p = 0 ∧ i = 0 then 1025
  else if p = 1 ∧ i = 0 then 2049
  else if p = 2 ∧ i = 0 then 3075
  else 0

/-- Concrete machine for witnesses. -/

def exM : Machine := ⟨exPte, fun _ _ => 0, ⟨4, 10, []⟩⟩

/-- Concrete page table rooted at page 0. -/

def exPT : PageTable := ⟨0, [0, 1, 2]⟩

/-- `exM` after unmapping virtual page 0. -/

def exM1 : Machine := writePte exM 2 0 0

/-- Concrete kernel byte memory: the bytes `hi` at addresses 1000-1001. -/

def kmemEx (a : Nat) : Nat :=
  if a = 1000 then 104 else if a = 1001 then 105 else 0

/-- Concrete trap context: a `write(1, 1000, 2)` environment call. -/

def cxEx : TrapContext :=
  ⟨fun i => if i = 17 then 64 else if i = 10 then 1
            else if i = 11 then 1000 else if i = 12 then 2 else 0,
   0, 100⟩

/-! ## Theorems -/

theorem land_two_pow_sub_one (x n : Nat) : x &&& (2 ^ n - 1) = x % 2 ^ n := by
  apply Nat.eq_of_testBit_eq
  intro i
  rw [Nat.testBit_land, Nat.testBit_two_pow_sub_one, Nat.testBit_mod_two_pow]
  exact Bool.and_comm _ _

theorem lor_low_mod (b a k : Nat) (h : a < 2 ^ k) : (b <<< k ||| a) % 2 ^ k = a := by
  apply Nat.eq_of_testBit_eq
  intro i
  rw [Nat.testBit_mod_two_pow, Nat.testBit_lor, Nat.testBit_shiftLeft]
  by_cases hik : i < k
  · have hik' : ¬ i ≥ k := Nat.not_le_of_lt hik
    simp [hik, hik']
  · have hia : a.testBit i = false := by
      apply Nat.testBit_lt_two_pow
      exact Nat.lt_of_lt_of_le h (Nat.pow_le_pow_right (by omega) (by omega))
    simp [hik, hia]

theorem lor_high_shift (b a k : Nat) (h : a < 2 ^ k) : (b <<< k ||| a) >>> k = b := by
  apply Nat.eq_of_testBit_eq
  intro i
  rw [Nat.testBit_shiftRight, Nat.testBit_lor, Nat.testBit_shiftLeft]
  have hia : a.testBit (k + i) = false := by
    apply Nat.testBit_lt_two_pow
    exact Nat.lt_of_lt_of_le h (Nat.pow_le_pow_right (by omega) (by omega))
  have hge : k + i ≥ k := Nat.le_add_right k i
  have hsub : k + i - k = i := by omega
  simp [hia, hge, hsub]

theorem lor_disjoint_eq_add (b a k : Nat) (h : a < 2 ^ k) :
    b <<< k ||| a = b * 2 ^ k + a := by
  have hdiv : (b <<< k ||| a) / 2 ^ k = b := by
    rw [← Nat.shiftRight_eq_div_pow]
    exact lor_high_shift b a k h
  have hmod := lor_low_mod b a k h
  have hdm := Nat.div_add_mod (b <<< k ||| a) (2 ^ k)
  rw [hdiv, hmod] at hdm
  rw [← hdm]
  ring

theorem flags_eq_some (e : PageTableEntry) : e.flags = some (e.bits % 256) := by
  unfold PageTableEntry.flags PTEFlags.from_bits
  have h : e.bits % 256 &&& 255 = e.bits % 256 := by
    have h2 := land_two_pow_sub_one (e.bits % 256) 8
    have h3 : e.bits % 256 % 2 ^ 8 = e.bits % 256 := by omega
    simpa [h3] using h2
  simp [h]

theorem is_valid_eq_parity (e : PageTableEntry) :
    e.is_valid = decide (e.bits % 2 = 1) := by
  unfold PageTableEntry.is_valid
  rw [flags_eq_some]
  have h1 : e.bits % 256 &&& PTEFlags.V = e.bits % 2 := by
    have h2 := land_two_pow_sub_one (e.bits % 256) 1
    simp only [pow_one, show (2 : Nat) - 1 = 1 from rfl] at h2
    unfold PTEFlags.V
    omega
  simp only [Option.getD_some, h1]
  by_cases h : e.bits % 2 = 1 <;> simp [h]

theorem new_bits_eq (ppn flags : Nat) (h : flags < 1024) :
    (PageTableEntry.new ppn flags).bits = ppn * 1024 + flags := by
  unfold PageTableEntry.new
  simpa using lor_disjoint_eq_add ppn flags 10 (by omega)

theorem new_ppn_eq (ppn flags : Nat) (hp : ppn < 2 ^ 44) (hf : flags < 1024) :
    (PageTableEntry.new ppn flags).ppn = ppn := by
  unfold PageTableEntry.ppn PageTableEntry.new
  rw [lor_high_shift ppn flags 10 (by omega), land_two_pow_sub_one]
  omega

theorem new_flags_eq (ppn flags : Nat) (hf : flags < 256) :
    (PageTableEntry.new ppn flags).flags = some flags := by
  rw [flags_eq_some, new_bits_eq ppn flags (by omega)]
  have : (ppn * 1024 + flags) % 256 = flags := by omega
  rw [this]

theorem new_is_valid (ppn flags : Nat) (hf : flags < 1024) (hodd : flags % 2 = 1) :
    (PageTableEntry.new ppn flags).is_valid = true := by
  rw [is_valid_eq_parity, new_bits_eq ppn flags hf]
  simp only [decide_eq_true_eq]
  omega

theorem empty_not_valid : PageTableEntry.empty.is_valid = false := by
  rw [is_valid_eq_parity]
  simp [PageTableEntry.empty]

theorem writePte_pte_at (m : Machine) (p i v : Nat) : (writePte m p i v).pte p i = v := by
  simp [writePte]

theorem writePte_pte_ne (m : Machine) (p i v q j : Nat) (h : q ≠ p ∨ j ≠ i) :
    (writePte m p i v).pte q j = m.pte q j := by
  rcases h with h | h <;> simp [writePte, h]

theorem writePte_alloc (m : Machine) (p i v : Nat) : (writePte m p i v).alloc = m.alloc := rfl

theorem writePte_byte (m : Machine) (p i v : Nat) : (writePte m p i v).byte = m.byte := rfl

theorem zeroPage_pte_at (m : Machine) (p j : Nat) : (zeroPage m p).pte p j = 0 := by
  simp [zeroPage]

theorem zeroPage_pte_ne (m : Machine) (p q j : Nat) (h : q ≠ p) :
    (zeroPage m p).pte q j = m.pte q j := by
  simp [zeroPage, h]

theorem zeroPage_alloc (m : Machine) (p : Nat) : (zeroPage m p).alloc = m.alloc := rfl

theorem zeroPage_byte (m : Machine) (p : Nat) : (zeroPage m p).byte = m.byte := rfl

theorem indexes_eq (vpn : Nat) : indexes vpn = [idx0 vpn, idx1 vpn, idx2 vpn] := rfl

theorem find_pte_eq (m : Machine) (pt : PageTable) (vpn : Nat) :
    PageTable.find_pte m pt vpn =
      (if (⟨m.pte pt.root_ppn (idx0 vpn)⟩ : PageTableEntry).is_valid then
        (if (⟨m.pte (⟨m.pte pt.root_ppn (idx0 vpn)⟩ : PageTableEntry).ppn (idx1 vpn)⟩ :
              PageTableEntry).is_valid then
          some ((⟨m.pte (⟨m.pte pt.root_ppn (idx0 vpn)⟩ : PageTableEntry).ppn
                  (idx1 vpn)⟩ : PageTableEntry).ppn, idx2 vpn)
        else none)
      else none) := by
  rw [PageTable.find_pte, indexes_eq]
  simp only [find_pte_aux]
  norm_num

theorem translate_eq_map_find (m : Machine) (pt : PageTable) (vpn : Nat) :
    PageTable.translate m pt vpn =
      (PageTable.find_pte m pt vpn).map (fun loc => (⟨m.pte loc.1 loc.2⟩ : PageTableEntry)) :=
  rfl

/-- If the read-only walk reaches the leaf slot, the creating walk reaches the
same slot without allocating or writing anything. -/
theorem find_pte_create_of_find_pte (m : Machine) (pt : PageTable) (vpn p i : Nat)
    (h : PageTable.find_pte m pt vpn = some (p, i)) :
    PageTable.find_pte_create m pt vpn = some ((p, i), pt, m) := by
  rw [find_pte_eq] at h
  rw [PageTable.find_pte_create, indexes_eq]
  simp only [find_pte_create_aux]
  by_cases h0 : (⟨m.pte pt.root_ppn (idx0 vpn)⟩ : PageTableEntry).is_valid
  · simp only [h0, if_true] at h ⊢
    by_cases h1 : (⟨m.pte (⟨m.pte pt.root_ppn (idx0 vpn)⟩ : PageTableEntry).ppn
        (idx1 vpn)⟩ : PageTableEntry).is_valid
    · simp only [h1, if_true] at h ⊢
      norm_num at h ⊢
      exact ⟨h.1, h.2⟩
    · simp [h1] at h
  · simp [h0] at h

/-- C10: for every `ppn < 2^44` and flag subset of the eight defined bits,
`PageTableEntry::new(ppn, flags)` round-trips: `ppn()` returns `ppn` and
`flags()` returns exactly `flags`; moreover `flags()` is total (never
`none`) on every entry, since all eight low bits are defined flag bits. -/
theorem pte_new_roundtrip (ppn flags : Nat) (hp : ppn < 2 ^ 44)
    (hf : flags &&& 255 = flags) :
    (PageTableEntry.new ppn flags).ppn = ppn ∧
    (PageTableEntry.new ppn flags).flags = some flags ∧
    ∀ e : PageTableEntry, (e.flags).isSome = true := by
  have h2 : flags &&& 255 = flags % 256 := land_two_pow_sub_one flags 8
  have hf' : flags < 256 := by omega
  refine ⟨new_ppn_eq ppn flags hp (by omega), new_flags_eq ppn flags hf', ?_⟩
  intro e
  rw [flags_eq_some]
  rfl

/-- Witness for C10 at `ppn = 5`, `flags = 3`. -/
theorem pte_new_roundtrip_witness :
    (PageTableEntry.new 5 3).ppn = 5 ∧
    (PageTableEntry.new 5 3).flags = some 3 ∧
    ∀ e : PageTableEntry, (e.flags).isSome = true :=
  pte_new_roundtrip 5 3 (by decide) (by decide)

/-- C8: for a root fitting in 44 bits, `token()` is exactly the SV39 mode
tag 8 in the top four bits plus the root page number, and
`from_token(token())` reconstructs the same root with an empty
frame-ownership list. -/
theorem token_roundtrip (pt : PageTable) (h : pt.root_ppn < 2 ^ 44) :
    PageTable.token pt = 8 * 2 ^ 60 + pt.root_ppn ∧
    (PageTable.token pt) >>> 60 = 8 ∧
    PageTable.from_token (PageTable.token pt) = ⟨pt.root_ppn, []⟩ := by
  have hlt : pt.root_ppn < 2 ^ 60 := lt_of_lt_of_le h (by norm_num)
  have htok : PageTable.token pt = 8 * 2 ^ 60 + pt.root_ppn := by
    unfold PageTable.token
    exact lor_disjoint_eq_add 8 pt.root_ppn 60 hlt
  refine ⟨htok, ?_, ?_⟩
  · rw [htok, Nat.shiftRight_eq_div_pow]
    omega
  · unfold PageTable.from_token
    rw [htok, land_two_pow_sub_one]
    have : (8 * 2 ^ 60 + pt.root_ppn) % 2 ^ 44 = pt.root_ppn := by omega
    rw [this]

/-- Witness for C8 at root 5. -/
theorem token_roundtrip_witness :
    PageTable.token ⟨5, [7]⟩ = 8 * 2 ^ 60 + 5 ∧
    (PageTable.token ⟨5, [7]⟩) >>> 60 = 8 ∧
    PageTable.from_token (PageTable.token ⟨5, [7]⟩) = ⟨5, []⟩ :=
  token_roundtrip ⟨5, [7]⟩ (by decide)

/-- C9: `sys_exit` requests shutdown through the SRST reset call with reset
type shutdown (0) and reason none (0); its outcome type has no
normal-return constructor, and if the firmware call returns the kernel
falls to the idle wait loop, otherwise the machine halts. -/
theorem sys_exit_never_returns (code : Int) (fr : Bool) :
    (sys_exit code fr).1 =
      ⟨SBI_EXT_SRST, 0, SBI_SRST_RESET_TYPE_SHUTDOWN, SBI_SRST_RESET_REASON_NONE⟩ ∧
    (sys_exit code fr).1.arg0 = 0 ∧
    (sys_exit code fr).1.arg1 = 0 ∧
    (fr = true → (sys_exit code fr).2 = ExitOutcome.idleWait) ∧
    (fr = false → (sys_exit code fr).2 = ExitOutcome.halted) := by
  cases fr <;>
    simp [sys_exit, shutdown, SBI_SRST_RESET_TYPE_SHUTDOWN, SBI_SRST_RESET_REASON_NONE]

/-- Witness for C9 at exit code 7, both firmware behaviors. -/
theorem sys_exit_never_returns_witness :
    (sys_exit 7 true).2 = ExitOutcome.idleWait ∧
    (sys_exit 7 false).2 = ExitOutcome.halted ∧
    (sys_exit 7 false).1.arg0 = 0 :=
  ⟨(sys_exit_never_returns 7 true).2.2.2.1 rfl,
   (sys_exit_never_returns 7 false).2.2.2.2 rfl,
   (sys_exit_never_returns 7 false).2.1⟩

/-- C6: `sys_write` returns -1 and logs the unsupported-descriptor notice
(emitting no user text) for any `fd` other than 1 or 2; for `fd` 1 or 2 it
returns 0 on a null pointer or zero length, and otherwise emits the `len`
bytes decoded as UTF-8 (the fixed placeholder replacing an invalid
sequence) and returns the byte count. -/
theorem sys_write_spec (kmem : Nat → Nat) (fd buf len : Nat) :
    (fd ≠ 1 → fd ≠ 2 → sys_write kmem fd buf len = ⟨-1, [], true⟩) ∧
    ((fd = 1 ∨ fd = 2) →
      ((buf = 0 ∨ len = 0) → sys_write kmem fd buf len = ⟨0, [], false⟩) ∧
      (buf ≠ 0 → len ≠ 0 →
        (sys_write kmem fd buf len).out =
          (if utf8Valid ((List.range len).map (fun k => kmem (buf + k))) then
            (List.range len).map (fun k => kmem (buf + k))
          else invalidUtf8Placeholder) ∧
        (sys_write kmem fd buf len).ret = isizeOfUsize len ∧
        (len < 2 ^ 63 → (sys_write kmem fd buf len).ret = (len : Int)) ∧
        (sys_write kmem fd buf len).logged = false)) := by
  refine ⟨?_, ?_⟩
  · intro h1 h2
    have : ¬(fd = 1 ∨ fd = 2) := by tauto
    simp [sys_write, this]
  · intro hfd
    refine ⟨?_, ?_⟩
    · intro hz
      simp [sys_write, hfd, hz]
    · intro hb hl
      have hz : ¬(buf = 0 ∨ len = 0) := by tauto
      refine ⟨?_, ?_, ?_, ?_⟩ <;> simp [sys_write, hfd, hz]
      intro hlen
      unfold isizeOfUsize
      have h1 : len % 2 ^ 64 = len := Nat.mod_eq_of_lt (by omega)
      rw [h1]
      simp [hlen]

/-- Witness for C6: `write(1, "hi", 2)` emits `hi` and returns 2;
`write(99, ptr, 5)` returns -1, emits nothing and logs the notice. -/
theorem sys_write_spec_witness :
    ((sys_write kmemEx 1 1000 2).out =
      (if utf8Valid ((List.range 2).map (fun k => kmemEx (1000 + k))) then
        (List.range 2).map (fun k => kmemEx (1000 + k))
      else invalidUtf8Placeholder) ∧
     (sys_write kmemEx 1 1000 2).ret = (2 : Int) ∧
     sys_write kmemEx 99 1000 5 = ⟨-1, [], true⟩) ∧
    (sys_write kmemEx 1 1000 2).out = [104, 105] :=
  ⟨⟨(((sys_write_spec kmemEx 1 1000 2).2 (Or.inl rfl)).2 (by decide) (by decide)).1,
    (((sys_write_spec kmemEx 1 1000 2).2 (Or.inl rfl)).2 (by decide) (by decide)).2.2.1
      (by decide),
    (sys_write_spec kmemEx 99 1000 5).1 (by decide) (by decide)⟩,
   by decide⟩

/-- C5: on a user environment call, `trap_handler` advances the saved
program counter by exactly 4, dispatches on register x17 with the saved
x10, x11, x12, and stores the signed dispatch result (cast to `usize`) in
x10, leaving every other register and `sstatus` unchanged. -/
theorem trap_handler_user_env_call (kmem : Nat → Nat) (stval : Nat) (cx : TrapContext)
    (v : Int) (out : List Nat)
    (h : syscall kmem (cx.x 17) (cx.x 10) (cx.x 11) (cx.x 12) = (SyscallOutcome.ret v, out)) :
    ∃ cx', trap_handler kmem Scause.userEnvCall stval cx = (TrapResult.resume cx', out) ∧
      cx'.sepc = cx.sepc + 4 ∧
      cx'.x 10 = usizeOfIsize v ∧
      (∀ i, i ≠ 10 → cx'.x i = cx.x i) ∧
      cx'.sstatus = cx.sstatus := by
  refine ⟨⟨Function.update cx.x 10 (usizeOfIsize v), cx.sstatus, cx.sepc + 4⟩,
    ?_, rfl, ?_, ?_, rfl⟩
  · unfold trap_handler
    rw [h]
  · show Function.update cx.x 10 (usizeOfIsize v) 10 = usizeOfIsize v
    exact Function.update_same 10 _ _
  · intro i hi
    show Function.update cx.x 10 (usizeOfIsize v) i = cx.x i
    exact Function.update_noteq hi _ _

/-- Witness for C5: a concrete `write(1, "hi", 2)` environment call. -/
theorem trap_handler_user_env_call_witness :
    ∃ cx', trap_handler kmemEx Scause.userEnvCall 0 cxEx =
        (TrapResult.resume cx', [104, 105]) ∧
      cx'.sepc = cxEx.sepc + 4 ∧
      cx'.x 10 = usizeOfIsize 2 ∧
      (∀ i, i ≠ 10 → cx'.x i = cxEx.x i) ∧
      cx'.sstatus = cxEx.sstatus :=
  trap_handler_user_env_call kmemEx 0 cxEx 2 [104, 105] (by decide)

/-- C7: `trap_handler` resumes only for user environment calls and
supervisor timer interrupts; every fault cause produces the corresponding
reporting panic result (with the trapped PC and, where applicable, the
faulting address or cause value) and never resumes. -/
theorem trap_handler_fatal_causes (kmem : Nat → Nat) (cause : Scause) (stval : Nat)
    (cx : TrapContext) :
    (∀ r out, trap_handler kmem cause stval cx = (r, out) → r.resumes = true →
      cause = Scause.userEnvCall ∨ cause = Scause.supervisorTimer) ∧
    ((cause = Scause.storeFault ∨ cause = Scause.storePageFault ∨
      cause = Scause.loadFault ∨ cause = Scause.loadPageFault) →
      trap_handler kmem cause stval cx = (TrapResult.pageFaultPanic cx.sepc stval, []) ∧
      (TrapResult.pageFaultPanic cx.sepc stval).resumes = false) ∧
    (cause = Scause.illegalInstruction →
      trap_handler kmem cause stval cx = (TrapResult.illegalInstructionPanic cx.sepc, []) ∧
      (TrapResult.illegalInstructionPanic cx.sepc).resumes = false) ∧
    (∀ c, cause = Scause.other c →
      trap_handler kmem cause stval cx = (TrapResult.unsupportedPanic (Scause.other c) stval, []) ∧
      (TrapResult.unsupportedPanic (Scause.other c) stval).resumes = false) := by
  refine ⟨?_, ?_, ?_, ?_⟩
  · intro r out h hres
    cases cause
    case userEnvCall => exact Or.inl rfl
    case supervisorTimer => exact Or.inr rfl
    all_goals
      simp [trap_handler] at h
      rw [← h.1] at hres
      simp [TrapResult.resumes] at hres
  · rintro (h | h | h | h) <;> subst h <;> exact ⟨rfl, rfl⟩
  · intro h
    subst h
    exact ⟨rfl, rfl⟩
  · intro c h
    subst h
    exact ⟨rfl, rfl⟩

/-- Witness for C7 at a store fault and an unrecognized cause. -/
theorem trap_handler_fatal_causes_witness :
    (trap_handler kmemEx Scause.storeFault 77 cxEx =
      (TrapResult.pageFaultPanic cxEx.sepc 77, []) ∧
     (TrapResult.pageFaultPanic cxEx.sepc 77).resumes = false) ∧
    (trap_handler kmemEx (Scause.other 9) 3 cxEx =
      (TrapResult.unsupportedPanic (Scause.other 9) 3, []) ∧
     (TrapResult.unsupportedPanic (Scause.other 9) 3).resumes = false) :=
  ⟨(trap_handler_fatal_causes kmemEx Scause.storeFault 77 cxEx).2.1 (Or.inl rfl),
   (trap_handler_fatal_causes kmemEx (Scause.other 9) 3 cxEx).2.2.2 9 rfl⟩

theorem lor_lt_two_pow (a b n : Nat) (ha : a < 2 ^ n) (hb : b < 2 ^ n) :
    a ||| b < 2 ^ n := by
  have h : (a ||| b) % 2 ^ n = a ||| b := by
    apply Nat.eq_of_testBit_eq
    intro i
    rw [Nat.testBit_mod_two_pow, Nat.testBit_lor]
    by_cases hin : i < n
    · simp [hin]
    · have hpow : 2 ^ n ≤ 2 ^ i := Nat.pow_le_pow_right (by omega) (by omega)
      rw [Nat.testBit_lt_two_pow (by omega), Nat.testBit_lt_two_pow (by omega)]
      simp [hin]
  have h2 : (a ||| b) % 2 ^ n < 2 ^ n := Nat.mod_lt _ (by positivity)
  omega

theorem frame_alloc_frontier (m : Machine) (hrec : m.alloc.recycled = [])
    (hlt : m.alloc.current < m.alloc.endFrame) :
    frame_alloc m = some (m.alloc.current,
      zeroPage { m with alloc := ⟨m.alloc.current + 1, m.alloc.endFrame, []⟩ }
        m.alloc.current) := by
  unfold frame_alloc
  dsimp only
  simp only [hrec]
  rw [if_pos hlt]

/-- Creating walk when the level-0 entry is valid but the level-1 entry is
invalid: one directory frame is allocated at the frontier, installed in the
level-1 slot, and the leaf slot lives on the fresh zero-filled frame. -/
theorem find_pte_create_alloc1 (m : Machine) (pt : PageTable) (vpn : Nat)
    (h0 : (⟨m.pte pt.root_ppn (idx0 vpn)⟩ : PageTableEntry).is_valid = true)
    (h1 : (⟨m.pte (⟨m.pte pt.root_ppn (idx0 vpn)⟩ : PageTableEntry).ppn (idx1 vpn)⟩ :
        PageTableEntry).is_valid = false)
    (hrec : m.alloc.recycled = [])
    (hlt : m.alloc.current < m.alloc.endFrame) :
    PageTable.find_pte_create m pt vpn =
      some (((PageTableEntry.new m.alloc.current PTEFlags.V).ppn, idx2 vpn),
        { pt with frames := pt.frames ++ [m.alloc.current] },
        writePte
          (zeroPage { m with alloc := ⟨m.alloc.current + 1, m.alloc.endFrame, []⟩ }
            m.alloc.current)
          (⟨m.pte pt.root_ppn (idx0 vpn)⟩ : PageTableEntry).ppn (idx1 vpn)
          (PageTableEntry.new m.alloc.current PTEFlags.V).bits) := by
  rw [PageTable.find_pte_create, indexes_eq]
  simp only [find_pte_create_aux]
  norm_num
  rw [if_pos h0, if_neg (by rw [h1]; exact Bool.false_ne_true),
    frame_alloc_frontier m hrec hlt]

/-- The all-zero entry is invalid. -/
theorem zero_pte_invalid : (⟨0⟩ : PageTableEntry).is_valid = false := empty_not_valid

/-- The creating walk from level 1 on, when the level-1 entry is invalid:
one frame is allocated at the frontier and installed, and the walk ends at
the leaf slot of that fresh frame. -/
theorem find_pte_create_aux_lvl1 (m : Machine) (pt : PageTable) (j1 j2 p1 : Nat)
    (h1 : (⟨m.pte p1 j1⟩ : PageTableEntry).is_valid = false)
    (hrec : m.alloc.recycled = [])
    (hlt : m.alloc.current < m.alloc.endFrame) :
    find_pte_create_aux m pt [j1, j2] 1 p1 =
      some (((PageTableEntry.new m.alloc.current PTEFlags.V).ppn, j2),
        { pt with frames := pt.frames ++ [m.alloc.current] },
        writePte (zeroPage { m with alloc := ⟨m.alloc.current + 1, m.alloc.endFrame, []⟩ }
          m.alloc.current) p1 j1 (PageTableEntry.new m.alloc.current PTEFlags.V).bits) := by
  rw [find_pte_create_aux]
  norm_num
  rw [if_neg (by rw [h1]; exact Bool.false_ne_true), frame_alloc_frontier m hrec hlt]
  dsimp only
  rw [find_pte_create_aux]
  norm_num

/-- Creating walk when the level-0 entry is invalid: two directory frames
are allocated at consecutive frontier positions; the hypothesis
`hroot` keeps the root distinct from the first fresh frame so the freshly
installed level-0 entry is not clobbered. -/
theorem find_pte_create_alloc2 (m : Machine) (pt : PageTable) (vpn : Nat)
    (h0 : (⟨m.pte pt.root_ppn (idx0 vpn)⟩ : PageTableEntry).is_valid = false)
    (hrec : m.alloc.recycled = [])
    (hroot : pt.root_ppn < m.alloc.current)
    (hend : m.alloc.endFrame ≤ 2 ^ 44)
    (hlt : m.alloc.current + 2 ≤ m.alloc.endFrame) :
    PageTable.find_pte_create m pt vpn =
      some (((PageTableEntry.new (m.alloc.current + 1) PTEFlags.V).ppn, idx2 vpn),
        { pt with frames := (pt.frames ++ [m.alloc.current]) ++ [m.alloc.current + 1] },
        writePte
          (zeroPage
            { writePte
                (zeroPage { m with alloc := ⟨m.alloc.current + 1, m.alloc.endFrame, []⟩ }
                  m.alloc.current)
                pt.root_ppn (idx0 vpn)
                (PageTableEntry.new m.alloc.current PTEFlags.V).bits with
              alloc := ⟨m.alloc.current + 2, m.alloc.endFrame, []⟩ }
            (m.alloc.current + 1))
          m.alloc.current (idx1 vpn)
          (PageTableEntry.new (m.alloc.current + 1) PTEFlags.V).bits) := by
  have hf1 : m.alloc.current < 2 ^ 44 := by omega
  rw [PageTable.find_pte_create, indexes_eq, find_pte_create_aux]
  norm_num
  rw [if_neg (by rw [h0]; exact Bool.false_ne_true),
    frame_alloc_frontier m hrec (by omega)]
  dsimp only
  rw [new_ppn_eq m.alloc.current PTEFlags.V hf1 (by norm_num [PTEFlags.V])]
  apply Eq.trans (find_pte_create_aux_lvl1 _ _ _ _ _ ?_ ?_ ?_)
  · dsimp only [writePte, zeroPage]
    simp only [List.append_assoc, List.cons_append, List.nil_append]
  · rw [writePte_pte_ne _ _ _ _ _ _ (Or.inl (by omega)), zeroPage_pte_at]
    exact zero_pte_invalid
  · rfl
  · show m.alloc.current + 1 < m.alloc.endFrame
    omega

theorem pte_eta (e : PageTableEntry) : (⟨e.bits⟩ : PageTableEntry) = e := rfl

/-- C3: mapping a currently unmapped virtual page and then translating it
returns an entry holding exactly the mapped physical page number and the
given flags with Valid forced on. Hypotheses: a sane allocator/table state
(`Inv`), room for the at most two directory frames `map` may allocate, an
alias-free walk, and in-range arguments. -/
theorem map_then_translate (m : Machine) (pt : PageTable) (vpn ppn flags : Nat)
    (hInv : Inv m pt)
    (hroom : m.alloc.current + 2 ≤ m.alloc.endFrame)
    (hok : walk_ok m pt vpn = true)
    (hnm : IsMapped m pt vpn = false)
    (hppn : ppn < 2 ^ 44) (hflags : flags < 256) :
    ∃ pt' m', PageTable.map m pt vpn ppn flags = some (pt', m') ∧
      ∃ e, PageTable.translate m' pt' vpn = some e ∧
        e.ppn = ppn ∧ e.flags = some (flags ||| PTEFlags.V) := by
  obtain ⟨hroot, hrec, hend, hptr⟩ := hInv
  have hV1024 : PTEFlags.V < 1024 := by norm_num [PTEFlags.V]
  have hVodd : PTEFlags.V % 2 = 1 := by norm_num [PTEFlags.V]
  have hfl1024 : flags ||| PTEFlags.V < 1024 := by
    have := lor_lt_two_pow flags PTEFlags.V 10 (by omega) (by norm_num [PTEFlags.V])
    norm_num at this ⊢
    omega
  have hfl256 : flags ||| PTEFlags.V < 256 := by
    have := lor_lt_two_pow flags PTEFlags.V 8 (by omega) (by norm_num [PTEFlags.V])
    norm_num at this ⊢
    omega
  unfold walk_ok at hok
  by_cases h0 : (⟨m.pte pt.root_ppn (idx0 vpn)⟩ : PageTableEntry).is_valid
  · rw [if_pos h0] at hok
    have hp1 : (⟨m.pte pt.root_ppn (idx0 vpn)⟩ : PageTableEntry).ppn < m.alloc.current :=
      hptr pt.root_ppn (idx0 vpn) hroot
    by_cases hd1 : ((⟨m.pte pt.root_ppn (idx0 vpn)⟩ : PageTableEntry).ppn = pt.root_ppn ∧
        idx1 vpn = idx0 vpn)
    · rw [if_pos hd1] at hok
      exact absurd hok (by simp)
    · rw [if_neg hd1] at hok
      by_cases h1 : (⟨m.pte (⟨m.pte pt.root_ppn (idx0 vpn)⟩ : PageTableEntry).ppn
          (idx1 vpn)⟩ : PageTableEntry).is_valid
      · -- both directory levels valid: no allocation, write only the leaf
        rw [if_pos h1] at hok
        rw [decide_eq_true_eq] at hok
        obtain ⟨hd2, hd3⟩ := hok
        have hfind : PageTable.find_pte m pt vpn =
            some ((⟨m.pte (⟨m.pte pt.root_ppn (idx0 vpn)⟩ : PageTableEntry).ppn
              (idx1 vpn)⟩ : PageTableEntry).ppn, idx2 vpn) := by
          rw [find_pte_eq, if_pos h0, if_pos h1]
        have h2 : (⟨m.pte (⟨m.pte (⟨m.pte pt.root_ppn (idx0 vpn)⟩ :
            PageTableEntry).ppn (idx1 vpn)⟩ : PageTableEntry).ppn (idx2 vpn)⟩ :
            PageTableEntry).is_valid = false := by
          unfold IsMapped at hnm
          unfold PageTable.translate at hnm
          rw [hfind] at hnm
          exact hnm
        exact ⟨_, _,
          by
            rw [PageTable.map, find_pte_create_of_find_pte m pt vpn _ _ hfind]
            dsimp only
            rw [if_neg (by rw [h2]; exact Bool.false_ne_true)],
          _,
          by
            unfold PageTable.translate
            rw [find_pte_eq]
            rw [writePte_pte_ne _ _ _ _ _ _ ((not_and_or.mp hd2).imp Ne.symm Ne.symm)]
            rw [if_pos h0]
            rw [writePte_pte_ne _ _ _ _ _ _ ((not_and_or.mp hd3).imp Ne.symm Ne.symm)]
            rw [if_pos h1]
            simp only [Option.map_some']
            rw [writePte_pte_at],
          by rw [pte_eta, new_ppn_eq ppn _ hppn hfl1024],
          by rw [pte_eta, new_flags_eq ppn _ hfl256]⟩
      · -- level-1 entry invalid: one directory frame is allocated
        have hcur44 : m.alloc.current < 2 ^ 44 := by omega
        have hppn1 : (PageTableEntry.new m.alloc.current PTEFlags.V).ppn =
            m.alloc.current := new_ppn_eq _ _ hcur44 hV1024
        have hcreate := find_pte_create_alloc1 m pt vpn h0
          (by rw [Bool.eq_false_iff]; exact h1) hrec (by omega)
        have h2 : ((⟨(writePte
            (zeroPage { m with alloc := ⟨m.alloc.current + 1, m.alloc.endFrame, []⟩ }
              m.alloc.current)
            (⟨m.pte pt.root_ppn (idx0 vpn)⟩ : PageTableEntry).ppn (idx1 vpn)
            (PageTableEntry.new m.alloc.current PTEFlags.V).bits).pte
            m.alloc.current (idx2 vpn)⟩ : PageTableEntry)).is_valid = false := by
          rw [writePte_pte_ne _ _ _ _ _ _ (Or.inl (by omega)), zeroPage_pte_at]
          exact zero_pte_invalid
        exact ⟨_, _,
          by
            rw [PageTable.map, hcreate]
            dsimp only
            rw [hppn1]
            rw [if_neg (by rw [h2]; exact Bool.false_ne_true)],
          _,
          by
            unfold PageTable.translate
            rw [find_pte_eq]
            dsimp only
            rw [writePte_pte_ne _ _ _ _ _ _ (Or.inl (by omega))]
            rw [writePte_pte_ne _ _ _ _ _ _
              ((not_and_or.mp hd1).imp Ne.symm Ne.symm)]
            rw [zeroPage_pte_ne _ _ _ _ (by omega)]
            dsimp only
            rw [if_pos h0]
            rw [writePte_pte_ne _ _ _ _ _ _ (Or.inl (by omega))]
            rw [writePte_pte_at, pte_eta]
            rw [new_is_valid _ _ hV1024 hVodd, if_pos rfl, hppn1]
            simp only [Option.map_some']
            rw [writePte_pte_at],
          by rw [pte_eta, new_ppn_eq ppn _ hppn hfl1024],
          by rw [pte_eta, new_flags_eq ppn _ hfl256]⟩
  · -- level-0 entry invalid: two directory frames are allocated
    have hcur44 : m.alloc.current < 2 ^ 44 := by omega
    have hcur44' : m.alloc.current + 1 < 2 ^ 44 := by omega
    have hppn1 : (PageTableEntry.new m.alloc.current PTEFlags.V).ppn =
        m.alloc.current := new_ppn_eq _ _ hcur44 hV1024
    have hppn2 : (PageTableEntry.new (m.alloc.current + 1) PTEFlags.V).ppn =
        m.alloc.current + 1 := new_ppn_eq _ _ hcur44' hV1024
    have hcreate := find_pte_create_alloc2 m pt vpn
      (by rw [Bool.eq_false_iff]; exact h0) hrec hroot hend hroom
    exact ⟨_, _,
      by
        rw [PageTable.map, hcreate]
        dsimp only
        rw [hppn2]
        rw [if_neg (by
          rw [writePte_pte_ne _ _ _ _ _ _ (Or.inl (by omega)), zeroPage_pte_at]
          rw [zero_pte_invalid]
          exact Bool.false_ne_true)],
      _,
      by
        unfold PageTable.translate
        rw [find_pte_eq]
        dsimp only
        rw [writePte_pte_ne _ _ _ _ _ _ (Or.inl (by omega))]
        rw [writePte_pte_ne _ _ _ _ _ _ (Or.inl (by omega))]
        rw [zeroPage_pte_ne _ _ _ _ (by omega)]
        dsimp only
        rw [writePte_pte_at, pte_eta]
        rw [new_is_valid _ _ hV1024 hVodd, if_pos rfl, hppn1]
        rw [writePte_pte_ne _ _ _ _ _ _ (Or.inl (by omega))]
        rw [writePte_pte_at, pte_eta]
        rw [new_is_valid _ _ hV1024 hVodd, if_pos rfl, hppn2]
        simp only [Option.map_some']
        rw [writePte_pte_at],
      by rw [pte_eta, new_ppn_eq ppn _ hppn hfl1024],
      by rw [pte_eta, new_flags_eq ppn _ hfl256]⟩

/-- Witness for C3: mapping the unmapped virtual page 1 of `exM` to
physical page 5 with flags R|W, then translating it. -/
theorem map_then_translate_witness :
    ∃ pt' m', PageTable.map exM exPT 1 5 6 = some (pt', m') ∧
      ∃ e, PageTable.translate m' pt' 1 = some e ∧
        e.ppn = 5 ∧ e.flags = some (6 ||| PTEFlags.V) :=
  map_then_translate exM exPT 1 5 6
    ⟨by decide, rfl, by decide, by
      intro p i hp
      show (⟨exPte p i⟩ : PageTableEntry).ppn < 4
      unfold exPte
      split_ifs <;> decide⟩
    (by decide) (by decide) (by decide) (by decide) (by decide)

/-- C1 counterexample: in the concrete machine `exM`, unmapping virtual
page 0 succeeds, yet `translate` afterwards returns `some` (the cleared,
invalid leaf entry), not `none` — refuting "after unmap(vpn) succeeds,
translate(vpn) returns nothing". -/
theorem translate_after_unmap_counterexample :
    PageTable.unmap exM exPT 0 = some exM1 ∧
    PageTable.translate exM1 exPT 0 = some ⟨0⟩ ∧
    (some (⟨0⟩ : PageTableEntry) ≠ (none : Option PageTableEntry)) :=
  ⟨rfl, rfl, by simp⟩

/-- C1 (amended): `translate` returns `none` exactly when a directory level
is invalid; an invalid final-level entry under valid directories yields
`some` of an entry whose Valid flag is clear — in particular, after a
successful `unmap` on an alias-free walk, `translate` returns `some` of the
empty entry — so the two no-mapping cases are distinguishable by callers. -/
theorem translate_unmapped_distinction (m : Machine) (pt : PageTable) (vpn : Nat) :
    ((⟨m.pte pt.root_ppn (idx0 vpn)⟩ : PageTableEntry).is_valid = false →
      PageTable.translate m pt vpn = none) ∧
    ((⟨m.pte pt.root_ppn (idx0 vpn)⟩ : PageTableEntry).is_valid = true →
     (⟨m.pte (⟨m.pte pt.root_ppn (idx0 vpn)⟩ : PageTableEntry).ppn (idx1 vpn)⟩ :
        PageTableEntry).is_valid = false →
      PageTable.translate m pt vpn = none) ∧
    (walk_ok m pt vpn = true →
      ∀ m1, PageTable.unmap m pt vpn = some m1 →
        PageTable.translate m1 pt vpn = some PageTableEntry.empty ∧
        PageTableEntry.empty.is_valid = false) := by
  refine ⟨?_, ?_, ?_⟩
  · intro h0
    unfold PageTable.translate
    rw [find_pte_eq]
    simp [h0]
  · intro h0 h1
    unfold PageTable.translate
    rw [find_pte_eq]
    simp [h0, h1]
  · intro hok m1 hun
    rw [PageTable.unmap, find_pte_eq] at hun
    unfold walk_ok at hok
    by_cases h0 : (⟨m.pte pt.root_ppn (idx0 vpn)⟩ : PageTableEntry).is_valid
    · rw [if_pos h0] at hun
      simp only [h0, if_true] at hok
      by_cases h1 : (⟨m.pte (⟨m.pte pt.root_ppn (idx0 vpn)⟩ : PageTableEntry).ppn
          (idx1 vpn)⟩ : PageTableEntry).is_valid
      · rw [if_pos h1] at hun
        simp only [h1, if_true] at hok
        by_cases hd1 : ((⟨m.pte pt.root_ppn (idx0 vpn)⟩ : PageTableEntry).ppn = pt.root_ppn ∧
            idx1 vpn = idx0 vpn)
        · rw [if_pos hd1] at hok
          exact absurd hok (by simp)
        · rw [if_neg hd1] at hok
          rw [decide_eq_true_eq] at hok
          obtain ⟨hd2, hd3⟩ := hok
          dsimp only at hun
          by_cases h2 : (⟨m.pte (⟨m.pte (⟨m.pte pt.root_ppn (idx0 vpn)⟩ :
              PageTableEntry).ppn (idx1 vpn)⟩ : PageTableEntry).ppn (idx2 vpn)⟩ :
              PageTableEntry).is_valid
          · rw [if_pos h2] at hun
            rw [Option.some_inj] at hun
            subst hun
            constructor
            · have r0 : (writePte m
                  (⟨m.pte (⟨m.pte pt.root_ppn (idx0 vpn)⟩ : PageTableEntry).ppn
                    (idx1 vpn)⟩ : PageTableEntry).ppn (idx2 vpn)
                  PageTableEntry.empty.bits).pte pt.root_ppn (idx0 vpn) =
                  m.pte pt.root_ppn (idx0 vpn) := by
                apply writePte_pte_ne
                rcases not_and_or.mp hd2 with h | h
                · exact Or.inl (Ne.symm h)
                · exact Or.inr (Ne.symm h)
              have r1 : (writePte m
                  (⟨m.pte (⟨m.pte pt.root_ppn (idx0 vpn)⟩ : PageTableEntry).ppn
                    (idx1 vpn)⟩ : PageTableEntry).ppn (idx2 vpn)
                  PageTableEntry.empty.bits).pte
                  (⟨m.pte pt.root_ppn (idx0 vpn)⟩ : PageTableEntry).ppn (idx1 vpn) =
                  m.pte (⟨m.pte pt.root_ppn (idx0 vpn)⟩ : PageTableEntry).ppn (idx1 vpn) := by
                apply writePte_pte_ne
                rcases not_and_or.mp hd3 with h | h
                · exact Or.inl (Ne.symm h)
                · exact Or.inr (Ne.symm h)
              unfold PageTable.translate
              rw [find_pte_eq, r0]
              rw [if_pos h0, r1, if_pos h1]
              have r2 := writePte_pte_at m
                (⟨m.pte (⟨m.pte pt.root_ppn (idx0 vpn)⟩ : PageTableEntry).ppn
                  (idx1 vpn)⟩ : PageTableEntry).ppn (idx2 vpn) PageTableEntry.empty.bits
              simp only [Option.map_some']
              rw [r2]
            · exact empty_not_valid
          · rw [if_neg h2] at hun
            exact absurd hun (by simp)
      · rw [if_neg h1] at hun
        exact absurd hun (by simp)
    · rw [if_neg h0] at hun
      exact absurd hun (by simp)

/-- Witness for the amended C1: in `exM`, unmapping page 0 then translating
returns the invalid empty entry, and a walk from an invalid root slot
(virtual page 1 of a table rooted at the empty page 3) translates to
`none`. -/
theorem translate_unmapped_distinction_witness :
    PageTable.translate exM ⟨3, []⟩ 0 = none ∧
    (PageTable.translate exM1 exPT 0 = some PageTableEntry.empty ∧
     PageTableEntry.empty.is_valid = false) :=
  ⟨(translate_unmapped_distinction exM ⟨3, []⟩ 0).1 (by decide),
   (translate_unmapped_distinction exM exPT 0).2.2 (by decide) exM1 rfl⟩

/-- C4: mapping a virtual page whose final-level entry is already valid
panics (modelled `none`) without overwriting anything, and unmapping a page
with no valid final-level entry (absent directory path included) panics
rather than clearing anything. -/
theorem map_unmap_contract (m : Machine) (pt : PageTable) (vpn ppn flags : Nat) :
    (∀ p i, PageTable.find_pte m pt vpn = some (p, i) →
      (⟨m.pte p i⟩ : PageTableEntry).is_valid = true →
      PageTable.map m pt vpn ppn flags = none) ∧
    (IsMapped m pt vpn = false → PageTable.unmap m pt vpn = none) := by
  constructor
  · intro p i hf hv
    rw [PageTable.map, find_pte_create_of_find_pte m pt vpn p i hf]
    simp [hv]
  · intro hnm
    rw [PageTable.unmap]
    cases hf : PageTable.find_pte m pt vpn with
    | none => rfl
    | some loc =>
        have ht : PageTable.translate m pt vpn = some ⟨m.pte loc.1 loc.2⟩ := by
          unfold PageTable.translate
          rw [hf]
          rfl
        unfold IsMapped at hnm
        rw [ht] at hnm
        dsimp only at hnm
        simp [hnm]

/-- Witness for C4: mapping the already-mapped virtual page 0 of `exM`
fails, and unmapping the unmapped virtual page 1 fails. -/
theorem map_unmap_contract_witness :
    PageTable.map exM exPT 0 5 2 = none ∧
    PageTable.unmap exM exPT 1 = none :=
  ⟨(map_unmap_contract exM exPT 0 5 2).1 2 0 (by decide) (by decide),
   (map_unmap_contract exM exPT 1 5 2).2 (by decide)⟩

/-- Loop invariant of `translated_byte_buffer`: over a non-empty range with
every touched page translatable, the loop succeeds; the number of slices is
one plus the number of page boundaries crossed, their lengths sum to the
range length, no slice is empty or exceeds a page, and their concatenation
is exactly the virtual bytes of the range. -/
theorem tbb_aux_spec (m : Machine) (pt : PageTable) (n : Nat) :
    ∀ start endv, endv - start ≤ n → start < endv →
    (∀ a, start ≤ a → a < endv → (PageTable.translate m pt (a / PAGE_SIZE)).isSome = true) →
    ∃ l, tbb_aux m pt start endv = some l ∧
      l.length = (endv - 1) / PAGE_SIZE - start / PAGE_SIZE + 1 ∧
      (l.map (fun s => s.hi - s.lo)).sum = endv - start ∧
      (∀ s ∈ l, s.lo < s.hi ∧ s.hi ≤ PAGE_SIZE) ∧
      l.flatMap (sliceBytes m) =
        (List.range (endv - start)).map (fun k => vbyte m pt (start + k)) := by
  induction n with
  | zero =>
    intro start endv hle hlt hmap
    omega
  | succ n ih =>
    intro start endv hle hlt hmap
    obtain ⟨e, he⟩ : ∃ e, PageTable.translate m pt (start / PAGE_SIZE) = some e := by
      have hs := hmap start le_rfl hlt
      cases hx : PageTable.translate m pt (start / PAGE_SIZE)
      · rw [hx] at hs
        simp at hs
      · exact ⟨_, rfl⟩
    have hbyte_eq : ∀ k, start + k < endv → (start + k) / PAGE_SIZE = start / PAGE_SIZE →
        vbyte m pt (start + k) = m.byte e.ppn (start % PAGE_SIZE + k) := by
      intro k hk hpage
      unfold vbyte
      rw [hpage, he]
      have : (start + k) % PAGE_SIZE = start % PAGE_SIZE + k := by
        simp only [PAGE_SIZE] at *
        omega
      rw [this]
    by_cases hcase : endv ≤ (start / PAGE_SIZE + 1) * PAGE_SIZE
    · -- final iteration: the range ends at or before the next page boundary
      have hq : start / PAGE_SIZE = (endv - 1) / PAGE_SIZE := by
        simp only [PAGE_SIZE] at *
        omega
      have hrec0 : tbb_aux m pt endv endv = some [] := by
        rw [tbb_aux]
        simp
      rw [tbb_aux, if_pos hlt, he]
      dsimp only
      rw [min_eq_right hcase, hrec0]
      dsimp only
      by_cases hz : endv % PAGE_SIZE = 0
      · have hev : endv = (start / PAGE_SIZE + 1) * PAGE_SIZE := by
          simp only [PAGE_SIZE] at *
          omega
        rw [if_pos hz]
        refine ⟨_, rfl, ?_, ?_, ?_, ?_⟩
        · simp only [List.length_singleton]
          omega
        · simp only [List.map_cons, List.map_nil, List.sum_cons, List.sum_nil]
          simp only [PAGE_SIZE] at *
          omega
        · intro s hs
          simp only [List.mem_singleton] at hs
          subst hs
          constructor
          · show start % PAGE_SIZE < PAGE_SIZE
            simp only [PAGE_SIZE]
            omega
          · exact le_rfl
        · simp only [List.flatMap_cons, List.flatMap_nil, List.append_nil]
          unfold sliceBytes
          have hlen_eq : PAGE_SIZE - start % PAGE_SIZE = endv - start := by
            simp only [PAGE_SIZE] at *
            omega
          rw [hlen_eq]
          apply List.map_congr_left
          intro k hk
          rw [List.mem_range] at hk
          rw [hbyte_eq k (by omega) (by simp only [PAGE_SIZE] at *; omega)]
      · rw [if_neg hz]
        refine ⟨_, rfl, ?_, ?_, ?_, ?_⟩
        · simp only [List.length_singleton]
          omega
        · simp only [List.map_cons, List.map_nil, List.sum_cons, List.sum_nil]
          simp only [PAGE_SIZE] at *
          omega
        · intro s hs
          simp only [List.mem_singleton] at hs
          subst hs
          constructor
          · show start % PAGE_SIZE < endv % PAGE_SIZE
            simp only [PAGE_SIZE] at *
            omega
          · show endv % PAGE_SIZE ≤ PAGE_SIZE
            simp only [PAGE_SIZE]
            omega
        · simp only [List.flatMap_cons, List.flatMap_nil, List.append_nil]
          unfold sliceBytes
          have hlen_eq : endv % PAGE_SIZE - start % PAGE_SIZE = endv - start := by
            simp only [PAGE_SIZE] at *
            omega
          rw [hlen_eq]
          apply List.map_congr_left
          intro k hk
          rw [List.mem_range] at hk
          rw [hbyte_eq k (by omega) (by simp only [PAGE_SIZE] at *; omega)]
    · -- the range crosses the next page boundary
      have hstep : start < (start / PAGE_SIZE + 1) * PAGE_SIZE := by
        simp only [PAGE_SIZE]
        omega
      have hlt' : (start / PAGE_SIZE + 1) * PAGE_SIZE < endv := by omega
      obtain ⟨l', hl', hlen', hsum', hmem', hbytes'⟩ :=
        ih ((start / PAGE_SIZE + 1) * PAGE_SIZE) endv (by omega) hlt'
          (fun a ha1 ha2 => hmap a (by omega) ha2)
      rw [tbb_aux, if_pos hlt, he]
      dsimp only
      rw [min_eq_left (le_of_lt hlt'), hl']
      dsimp only
      rw [if_pos (Nat.mul_mod_left _ _)]
      refine ⟨_, rfl, ?_, ?_, ?_, ?_⟩
      · simp only [List.length_cons, hlen']
        have hdiv : (start / PAGE_SIZE + 1) * PAGE_SIZE / PAGE_SIZE = start / PAGE_SIZE + 1 := by
          simp only [PAGE_SIZE]
          omega
        rw [hdiv]
        simp only [PAGE_SIZE] at *
        omega
      · simp only [List.map_cons, List.sum_cons, hsum']
        simp only [PAGE_SIZE] at *
        omega
      · intro s hs
        rw [List.mem_cons] at hs
        rcases hs with hs | hs
        · subst hs
          constructor
          · show start % PAGE_SIZE < PAGE_SIZE
            simp only [PAGE_SIZE]
            omega
          · exact le_rfl
        · exact hmem' s hs
      · simp only [List.flatMap_cons]
        rw [hbytes']
        have hsplit : endv - start =
            ((start / PAGE_SIZE + 1) * PAGE_SIZE - start) +
            (endv - (start / PAGE_SIZE + 1) * PAGE_SIZE) := by omega
        rw [hsplit, List.range_add, List.map_append, List.map_map]
        congr 1
        · unfold sliceBytes
          have hlen_eq : PAGE_SIZE - start % PAGE_SIZE =
              (start / PAGE_SIZE + 1) * PAGE_SIZE - start := by
            simp only [PAGE_SIZE] at *
            omega
          rw [hlen_eq]
          apply List.map_congr_left
          intro k hk
          rw [List.mem_range] at hk
          rw [hbyte_eq k (by omega) (by simp only [PAGE_SIZE] at *; omega)]
        · apply List.map_congr_left
          intro k hk
          show vbyte m pt ((start / PAGE_SIZE + 1) * PAGE_SIZE + k) =
            vbyte m pt (start + ((start / PAGE_SIZE + 1) * PAGE_SIZE - start + k))
          congr 1
          omega

/-- C2: with `len > 0` and every page of `[ptr, ptr+len)` mapped,
`translated_byte_buffer` succeeds; it returns one slice per page touched
(`k+1` slices for `k` crossed boundaries, in particular exactly one for a
range inside a single page), the slice lengths are positive (no empty
trailing slice) and sum to `len`, and the concatenation of the slices is
exactly the `len` virtual bytes starting at `ptr`. -/
theorem translated_byte_buffer_spec (m : Machine) (token ptr len : Nat)
    (hlen : 0 < len)
    (hmapped : ∀ a, ptr ≤ a → a < ptr + len →
      IsMapped m (PageTable.from_token token) (a / PAGE_SIZE) = true) :
    ∃ l, translated_byte_buffer m token ptr len = some l ∧
      l.length = (ptr + len - 1) / PAGE_SIZE - ptr / PAGE_SIZE + 1 ∧
      (l.map (fun s => s.hi - s.lo)).sum = len ∧
      (∀ s ∈ l, s.lo < s.hi ∧ s.hi ≤ PAGE_SIZE) ∧
      l.flatMap (sliceBytes m) =
        (List.range len).map (fun k => vbyte m (PageTable.from_token token) (ptr + k)) ∧
      ((ptr + len - 1) / PAGE_SIZE = ptr / PAGE_SIZE → l.length = 1) := by
  have hsome : ∀ a, ptr ≤ a → a < ptr + len →
      (PageTable.translate m (PageTable.from_token token) (a / PAGE_SIZE)).isSome = true := by
    intro a h1 h2
    have hm := hmapped a h1 h2
    unfold IsMapped at hm
    cases hx : PageTable.translate m (PageTable.from_token token) (a / PAGE_SIZE)
    · rw [hx] at hm
      simp at hm
    · rfl
  obtain ⟨l, hl, hlen', hsum', hmem', hbytes'⟩ :=
    tbb_aux_spec m (PageTable.from_token token) (ptr + len - ptr) ptr (ptr + len)
      le_rfl (by omega) hsome
  have hds : ptr + len - ptr = len := by omega
  rw [hds] at hsum' hbytes'
  refine ⟨l, hl, hlen', hsum', hmem', hbytes', ?_⟩
  intro hone
  rw [hlen', hone]
  omega

/-- Witness for C2: reading 2 bytes at virtual address 100 of the address
space `exM`/`exPT` through its token. -/
theorem translated_byte_buffer_spec_witness :
    ∃ l, translated_byte_buffer exM (PageTable.token exPT) 100 2 = some l ∧
      l.length = (100 + 2 - 1) / PAGE_SIZE - 100 / PAGE_SIZE + 1 ∧
      (l.map (fun s => s.hi - s.lo)).sum = 2 ∧
      (∀ s ∈ l, s.lo < s.hi ∧ s.hi ≤ PAGE_SIZE) ∧
      l.flatMap (sliceBytes exM) =
        (List.range 2).map
          (fun k => vbyte exM (PageTable.from_token (PageTable.token exPT)) (100 + k)) ∧
      ((100 + 2 - 1) / PAGE_SIZE = 100 / PAGE_SIZE → l.length = 1) :=
  translated_byte_buffer_spec exM (PageTable.token exPT) 100 2 (by decide)
    (by
      intro a h1 h2
      have ha : a = 100 ∨ a = 101 := by omega
      rcases ha with ha | ha <;> subst ha <;> decide)

end RPOS

